import Mathlib

/-!
# Shallow embedding of `@txnlab/utils-ts`

This file embeds the `AssetAmount` class (`packages/utils-ts/src/asset-amount.ts`)
and the `formatNumber` function (`packages/utils-ts/src/format.ts`) in Lean 4 and
proves properties of the embedding.

Modelling conventions:
* `BigNumber` values are modelled as `ℚ`.  Every value the library actually
  stores is a finite decimal (an integer divided by a power of ten), and on
  such values the `bignumber.js` operations used here (`plus`, `minus`,
  `multipliedBy`, `integerValue`, `toString`/parsing) are exact, so `ℚ` is a
  faithful carrier.  `dividedBy` is modelled as exact rational division
  (`bignumber.js` rounds quotients to `DECIMAL_PLACES` significant decimals;
  none of the proved statements depend on digits beyond that precision).
  A `BigNumber` division by zero yields a non-finite value (`Infinity`/`NaN`);
  this is modelled by `Option ℚ` with `none` for the non-finite outcomes.
* JavaScript `number | bigint` asset ids are modelled as `ℤ`, and thrown
  `Error`s as an `Except AmountError` result.
-/

/-- Errors thrown by `AssetAmount` operations (`throw new Error(...)` sites). -/
inductive AmountError where
  /-- "Cannot add/subtract/compare AssetAmounts with different asset IDs (a and b)" -/
  | assetIdMismatch (thisId otherId : ℤ)
  /-- "Cannot add/subtract/compare AssetAmounts with different decimals" -/
  | decimalsMismatch
  /-- "Division by zero" -/
  | divisionByZero
  /-- "Asset price cannot be zero" -/
  | zeroPrice
  /-- "Cannot calculate percentage of zero" -/
  | zeroPercentageBase
  deriving DecidableEq, Repr

/-- `AssetInfo` record: asset id, decimal places, optional display names. -/
structure AssetInfo where
  id : ℤ
  decimals : ℕ
  unitName : Option String := none
  name : Option String := none
  deriving DecidableEq, Repr

/-- The `bignumber.js` rounding modes used by the library
(`ROUND_UP`, `ROUND_DOWN`, `ROUND_CEIL`, `ROUND_FLOOR`, `ROUND_HALF_UP`). -/
inductive RoundingMode where
  | roundUp
  | roundDown
  | roundCeil
  | roundFloor
  | roundHalfUp
  deriving DecidableEq, Repr

/-- `BigNumber.prototype.integerValue(rm)`: rounds to an integer.
`ROUND_UP` rounds away from zero, `ROUND_DOWN` towards zero,
`ROUND_CEIL`/`ROUND_FLOOR` towards `+∞`/`-∞`, and `ROUND_HALF_UP` rounds to
the nearest integer with ties away from zero. -/
def bnIntegerValue (rm : RoundingMode) (q : ℚ) : ℤ :=
  match rm with
  | .roundUp => if q < 0 then ⌊q⌋ else ⌈q⌉
  | .roundDown => if q < 0 then ⌈q⌉ else ⌊q⌋
  | .roundCeil => ⌈q⌉
  | .roundFloor => ⌊q⌋
  | .roundHalfUp => if q < 0 then ⌈q - 1/2⌉ else ⌊q + 1/2⌋

/-- `BigNumber.prototype.dividedBy`: `none` models the non-finite
(`Infinity`/`NaN`) result of dividing by zero. -/
def bnDividedBy (x y : ℚ) : Option ℚ :=
  if y = 0 then none else some (x / y)

/-- The `AssetAmount` class: the raw `BigNumber` microunits value
(`_microUnits`, possibly fractional) together with the stored asset info
(`_assetInfo`). -/
structure AssetAmount where
  _microUnits : ℚ
  _assetInfo : AssetInfo
  deriving DecidableEq, Repr

namespace AssetAmount

/-- `get decimals()`: `this._assetInfo.decimals`. -/
def decimals (a : AssetAmount) : ℕ :=
  a._assetInfo.decimals

/-- `get assetId()`: `this._assetInfo.id`. -/
def assetId (a : AssetAmount) : ℤ :=
  a._assetInfo.id

/-- `get microUnits()`: `BigInt(this._microUnits.integerValue(ROUND_DOWN).toString())`. -/
def microUnits (a : AssetAmount) : ℤ :=
  bnIntegerValue .roundDown a._microUnits

/-- `get microBigNum()`: the raw `BigNumber`, full precision. -/
def microBigNum (a : AssetAmount) : ℚ :=
  a._microUnits

/-- `get standardBigNum()`: `this._microUnits.dividedBy(10 ** decimals)`
(the divisor is a positive power of ten, so the division is finite and exact). -/
def standardBigNum (a : AssetAmount) : ℚ :=
  a._microUnits / 10 ^ a.decimals

/-- The `standardUnits` branch of the constructor:
`new BigNumber(v).multipliedBy(10 ** decimals).integerValue(ROUND_DOWN)`. -/
def StandardUnits (assetInfo : AssetInfo) (amount : ℚ) : AssetAmount :=
  { _assetInfo := assetInfo
    _microUnits := (bnIntegerValue .roundDown (amount * 10 ^ assetInfo.decimals) : ℤ) }

/-- The `microUnits` branch of the constructor: the value is stored as-is. -/
def MicroUnits (assetInfo : AssetInfo) (amount : ℚ) : AssetAmount :=
  { _assetInfo := assetInfo
    _microUnits := amount }

/-- `AssetAmount.zero(assetInfo)`. -/
def zero (assetInfo : AssetInfo) : AssetAmount :=
  MicroUnits assetInfo 0

/-- `isZero()`: `this._microUnits.isZero()`. -/
def isZero (a : AssetAmount) : Bool :=
  a._microUnits == 0

/-- `add(other)`: checks `assetId` then `decimals`; on success the result is
`this._microUnits.plus(other.microUnits.toString())` — note the argument is
`other`'s truncated integer accessor, not its raw value. -/
def add (a other : AssetAmount) : Except AmountError AssetAmount :=
  if a.assetId ≠ other.assetId then
    .error (.assetIdMismatch a.assetId other.assetId)
  else if a.decimals ≠ other.decimals then
    .error .decimalsMismatch
  else
    .ok (MicroUnits a._assetInfo (a._microUnits + (other.microUnits : ℚ)))

/-- `subtract(other)`: same checks; result is
`this._microUnits.minus(other.microUnits.toString())`. -/
def subtract (a other : AssetAmount) : Except AmountError AssetAmount :=
  if a.assetId ≠ other.assetId then
    .error (.assetIdMismatch a.assetId other.assetId)
  else if a.decimals ≠ other.decimals then
    .error .decimalsMismatch
  else
    .ok (MicroUnits a._assetInfo (a._microUnits - (other.microUnits : ℚ)))

/-- `multiply(scalar)`: `this._microUnits.multipliedBy(m).integerValue(ROUND_DOWN)`. -/
def multiply (a : AssetAmount) (scalar : ℚ) : AssetAmount :=
  MicroUnits a._assetInfo (bnIntegerValue .roundDown (a._microUnits * scalar) : ℤ)

/-- `divide(scalar)`: fails on a zero scalar, otherwise
`this._microUnits.dividedBy(d).integerValue(ROUND_DOWN)`. -/
def divide (a : AssetAmount) (scalar : ℚ) : Except AmountError AssetAmount :=
  if scalar = 0 then
    .error .divisionByZero
  else
    .ok (MicroUnits a._assetInfo (bnIntegerValue .roundDown (a._microUnits / scalar) : ℤ))

/-- `round(decimalPlaces, roundingMode)`: a no-op returning `this` when
`decimalPlaces >= this.decimals`; otherwise divides by
`10 ** (decimals - decimalPlaces)`, rounds the quotient to an integer with the
given mode, and multiplies back. -/
def round (a : AssetAmount) (decimalPlaces : ℕ) (roundingMode : RoundingMode) : AssetAmount :=
  if a.decimals ≤ decimalPlaces then
    a
  else
    let digitsToRemove := a.decimals - decimalPlaces
    let divisor : ℚ := 10 ^ digitsToRemove
    MicroUnits a._assetInfo
      ((bnIntegerValue roundingMode (a._microUnits / divisor) : ℚ) * divisor)

/-- `percentageOf(other)`: checks `assetId`, `decimals`, then `other.isZero()`
(on the raw value); on success computes
`this._microUnits.dividedBy(other.microUnits.toString()).multipliedBy(100).toNumber()` —
again dividing by `other`'s truncated integer accessor. -/
def percentageOf (a other : AssetAmount) : Except AmountError (Option ℚ) :=
  if a.assetId ≠ other.assetId then
    .error (.assetIdMismatch a.assetId other.assetId)
  else if a.decimals ≠ other.decimals then
    .error .decimalsMismatch
  else if other.isZero then
    .error .zeroPercentageBase
  else
    .ok ((bnDividedBy a._microUnits (other.microUnits : ℚ)).map (· * 100))

/-- `equals(other)`: `assetId` and `decimals` equal, and
`this._microUnits.isEqualTo(other.microUnits.toString())` — the raw value of
`this` compared against the truncated integer accessor of `other`. -/
def equals (a other : AssetAmount) : Bool :=
  a.assetId == other.assetId &&
    a.decimals == other.decimals &&
    a._microUnits == (other.microUnits : ℚ)

/-- The JSON form produced by `toJSON`: the asset info and the decimal string
`this._microUnits.toString()`.  The string is an exact decimal rendering of the
raw value, so it is modelled by the value itself. -/
structure JSONRepr where
  assetInfo : AssetInfo
  microUnits : ℚ
  deriving DecidableEq, Repr

/-- `toJSON()`. -/
def toJSON (a : AssetAmount) : JSONRepr :=
  { assetInfo := a._assetInfo, microUnits := a._microUnits }

/-- `AssetAmount.fromJSON(json)`: `AssetAmount.MicroUnits(json.assetInfo, json.microUnits)`. -/
def fromJSON (json : JSONRepr) : AssetAmount :=
  MicroUnits json.assetInfo json.microUnits

end AssetAmount

/-! ### Basic lemmas about the embedded `bignumber.js` operations -/

theorem bnIntegerValue_intCast (rm : RoundingMode) (n : ℤ) :
    bnIntegerValue rm (n : ℚ) = n := by
  have h1 : ⌈((n : ℚ) - 1/2)⌉ = n := by
    rw [Int.ceil_eq_iff]
    constructor <;> linarith
  have h2 : ⌊((n : ℚ) + 1/2)⌋ = n := by
    rw [Int.floor_eq_iff]
    constructor <;> linarith
  cases rm <;> simp only [bnIntegerValue] <;>
    first
      | split_ifs <;>
          first
            | exact h1
            | exact h2
            | simp
      | simp

theorem bnIntegerValue_of_den_eq_one (rm : RoundingMode) {q : ℚ} (h : q.den = 1) :
    (bnIntegerValue rm q : ℚ) = q := by
  rw [← (Rat.den_eq_one_iff q).mp h, bnIntegerValue_intCast]

namespace AssetAmount

/-- The `microUnits` accessor on an amount whose raw value is an integer
returns exactly that value. -/
theorem microUnits_of_den_eq_one {a : AssetAmount} (h : a._microUnits.den = 1) :
    (a.microUnits : ℚ) = a._microUnits :=
  bnIntegerValue_of_den_eq_one .roundDown h

/-- Shared sample identity for concrete instantiations. -/
def sampleInfo : AssetInfo :=
  { id := 1, decimals := 6 }

/-! ### C1: construction from standard units truncates toward zero -/

/-- **C1.** Constructing an amount from standard units stores
`rawValue = x * 10 ^ decimals` truncated toward zero, so the integer
`microUnits` accessor returns exactly that truncation: the floor for
nonnegative `x` and the ceiling (not the floor) for negative `x`. -/
theorem fromStandardUnits_trunc (I : AssetInfo) (x : ℚ) :
    (StandardUnits I x)._microUnits = ((StandardUnits I x).microUnits : ℚ) ∧
    (0 ≤ x → (StandardUnits I x).microUnits = ⌊x * 10 ^ I.decimals⌋) ∧
    (x < 0 → (StandardUnits I x).microUnits = ⌈x * 10 ^ I.decimals⌉) := by
  have hpow : (0 : ℚ) < 10 ^ I.decimals := by positivity
  have hmicro : (StandardUnits I x).microUnits
      = bnIntegerValue .roundDown (x * 10 ^ I.decimals) := by
    simp [StandardUnits, microUnits, bnIntegerValue_intCast]
  refine ⟨?_, fun hx => ?_, fun hx => ?_⟩
  · rw [hmicro]
    simp [StandardUnits]
  · have hq : ¬ (x * 10 ^ I.decimals < 0) := not_lt.mpr (mul_nonneg hx hpow.le)
    simp [hmicro, bnIntegerValue, hq]
  · have hq : x * 10 ^ I.decimals < 0 := mul_neg_of_neg_of_pos hx hpow
    simp [hmicro, bnIntegerValue, hq]

/-- Witness for C1: `5.5` with 6 decimals gives `5500000` microunits, and
`-1.0000005` gives `-1000000` (truncation toward zero, where flooring would
give `-1000001`). -/
theorem fromStandardUnits_trunc_witness :
    (0 : ℚ) ≤ 11/2 ∧
    (StandardUnits { id := 123, decimals := 6 } (11/2)).microUnits = 5500000 ∧
    (-(10000005/10000000) : ℚ) < 0 ∧
    (StandardUnits { id := 123, decimals := 6 } (-(10000005/10000000))).microUnits = -1000000 := by
  refine ⟨by norm_num, ?_, by norm_num, ?_⟩
  · rw [(fromStandardUnits_trunc { id := 123, decimals := 6 } (11/2)).2.1 (by norm_num)]
    norm_num
  · rw [(fromStandardUnits_trunc { id := 123, decimals := 6 }
      (-(10000005/10000000))).2.2 (by norm_num)]
    norm_num [Int.ceil_eq_iff]

/-! ### C2: `add`/`subtract` identity checks and result -/

/-- **C2 (amended).** `add` and `subtract` fail with the id-mismatch error
naming the two ids exactly when the asset ids differ, fail with the
decimals-mismatch error exactly when ids match but decimals differ, and
otherwise succeed with identity `a._assetInfo` and raw value
`a._microUnits ± (b.microUnits : ℚ)` — the *truncated* integer microunits of
`b`, not `b`'s raw value. -/
theorem add_subtract_checks (a b : AssetAmount) :
    (a.assetId ≠ b.assetId →
      a.add b = .error (.assetIdMismatch a.assetId b.assetId) ∧
      a.subtract b = .error (.assetIdMismatch a.assetId b.assetId)) ∧
    (a.assetId = b.assetId → a.decimals ≠ b.decimals →
      a.add b = .error .decimalsMismatch ∧
      a.subtract b = .error .decimalsMismatch) ∧
    (a.assetId = b.assetId → a.decimals = b.decimals →
      a.add b = .ok (MicroUnits a._assetInfo (a._microUnits + (b.microUnits : ℚ))) ∧
      a.subtract b = .ok (MicroUnits a._assetInfo (a._microUnits - (b.microUnits : ℚ)))) := by
  refine ⟨fun hid => ?_, fun hid hdec => ?_, fun hid hdec => ?_⟩
  · simp [add, subtract, hid]
  · simp [add, subtract, hid, hdec]
  · simp [add, subtract, hid, hdec]

/-- Witness for C2: mismatched ids fail naming both ids, mismatched decimals
fail with the decimals error, and a matching pair adds up. -/
theorem add_subtract_checks_witness :
    ((MicroUnits { id := 1, decimals := 6 } 5).add (MicroUnits { id := 2, decimals := 6 } 7)
      = .error (.assetIdMismatch 1 2)) ∧
    ((MicroUnits { id := 1, decimals := 6 } 5).add (MicroUnits { id := 1, decimals := 8 } 7)
      = .error .decimalsMismatch) ∧
    ((MicroUnits { id := 1, decimals := 6 } 5).add (MicroUnits { id := 1, decimals := 6 } 7)
      = .ok (MicroUnits { id := 1, decimals := 6 } 12)) := by
  refine ⟨?_, ?_, ?_⟩
  · have h := (add_subtract_checks (MicroUnits { id := 1, decimals := 6 } 5)
      (MicroUnits { id := 2, decimals := 6 } 7)).1 (by norm_num [MicroUnits, assetId])
    exact h.1
  · have h := ((add_subtract_checks (MicroUnits { id := 1, decimals := 6 } 5)
      (MicroUnits { id := 1, decimals := 8 } 7)).2.1 (by norm_num [MicroUnits, assetId])
      (by norm_num [MicroUnits, decimals]))
    exact h.1
  · have h := ((add_subtract_checks (MicroUnits { id := 1, decimals := 6 } 5)
      (MicroUnits { id := 1, decimals := 6 } 7)).2.2 rfl rfl).1
    rw [h]
    norm_num [MicroUnits, microUnits, bnIntegerValue]

/-- Counterexample for C2 as stated: adding an amount whose raw microunits
value is the fraction `1/2` succeeds but does not return the elementwise sum
of the raw values — the sum of the raws is `1/2` while the result's raw value
is `0`. -/
theorem add_raw_sum_cex :
    ((MicroUnits sampleInfo 0).add (MicroUnits sampleInfo (1/2))).map
        (fun r => r._microUnits) = .ok 0 ∧
    (MicroUnits sampleInfo 0)._microUnits + (MicroUnits sampleInfo (1/2))._microUnits
      = 1/2 ∧
    (0 : ℚ) ≠ 1/2 := by
  refine ⟨?_, by norm_num [MicroUnits], by norm_num⟩
  have h0 : (bnIntegerValue .roundDown ((2 : ℚ)⁻¹)) = 0 := by
    norm_num [bnIntegerValue]
  simp [add, MicroUnits, assetId, decimals, sampleInfo, microUnits, Except.map, h0]

end AssetAmount

namespace AssetAmount

/-! ### C3: JSON round-trip -/

/-- `equals` on an amount and itself holds when the raw value is an integer. -/
theorem equals_self_of_den_eq_one {a : AssetAmount} (h : a._microUnits.den = 1) :
    a.equals a = true := by
  simp [equals, microUnits_of_den_eq_one h]

/-- **C3 (amended).** `fromJSON (toJSON a)` reconstructs `a` exactly — same
identity and same raw microunits value — for every amount, including
fractional raw values; the `equals` method moreover accepts the round-trip
whenever the raw value is an integer (for fractional raw values `equals`
returns `false`, because it truncates its argument's microunits). -/
theorem fromJSON_toJSON_roundtrip (a : AssetAmount) :
    fromJSON (toJSON a) = a ∧
    (a._microUnits.den = 1 → (fromJSON (toJSON a)).equals a = true) := by
  exact ⟨rfl, fun h => equals_self_of_den_eq_one h⟩

/-- Witness for C3 at an integer-raw amount. -/
theorem fromJSON_toJSON_roundtrip_witness :
    (MicroUnits sampleInfo 5500000)._microUnits.den = 1 ∧
    fromJSON (toJSON (MicroUnits sampleInfo 5500000)) = MicroUnits sampleInfo 5500000 ∧
    (fromJSON (toJSON (MicroUnits sampleInfo 5500000))).equals
      (MicroUnits sampleInfo 5500000) = true := by
  have hden : (MicroUnits sampleInfo 5500000)._microUnits.den = 1 := by
    simp [MicroUnits]
  exact ⟨hden, (fromJSON_toJSON_roundtrip _).1, (fromJSON_toJSON_roundtrip _).2 hden⟩

/-- Counterexample for C3 as stated: an amount holding the fractional raw
microunits value `1/2` round-trips to an amount that `equals` rejects. -/
theorem fromJSON_toJSON_equals_cex :
    (fromJSON (toJSON (MicroUnits sampleInfo (1/2)))).equals
      (MicroUnits sampleInfo (1/2)) = false := by
  have h0 : (bnIntegerValue .roundDown ((2 : ℚ)⁻¹)) = 0 := by
    norm_num [bnIntegerValue]
  simp [fromJSON, toJSON, MicroUnits, equals, assetId, decimals, microUnits, sampleInfo, h0]

/-! ### C4: `equals` semantics -/

/-- **C4 (amended).** `equals` never fails (it is a total Boolean): it
returns `false` when the asset ids or the decimals differ; with matching
identities it returns `true` exactly when `a`'s raw value equals the
*truncated* integer microunits of `b` — which coincides with exact raw-value
comparison precisely when both raw values are integers. -/
theorem equals_spec (a b : AssetAmount) :
    (a.assetId ≠ b.assetId ∨ a.decimals ≠ b.decimals → a.equals b = false) ∧
    (a.assetId = b.assetId → a.decimals = b.decimals →
      (a.equals b = true ↔ a._microUnits = (b.microUnits : ℚ))) ∧
    (a.assetId = b.assetId → a.decimals = b.decimals →
      a._microUnits.den = 1 → b._microUnits.den = 1 →
      (a.equals b = true ↔ a._microUnits = b._microUnits)) := by
  refine ⟨fun h => ?_, fun hid hdec => ?_, fun hid hdec ha hb => ?_⟩
  · rcases h with h | h <;> simp [equals, h]
  · simp [equals, hid, hdec]
  · simp [equals, hid, hdec, microUnits_of_den_eq_one hb]

/-- Witness for C4 on all three branches. -/
theorem equals_spec_witness :
    ((MicroUnits { id := 1, decimals := 6 } 5).equals
      (MicroUnits { id := 2, decimals := 6 } 5) = false) ∧
    ((MicroUnits sampleInfo 0).equals (MicroUnits sampleInfo (1/2)) = true ↔
      (MicroUnits sampleInfo 0)._microUnits
        = ((MicroUnits sampleInfo (1/2)).microUnits : ℚ)) ∧
    ((MicroUnits sampleInfo 5).equals (MicroUnits sampleInfo 7) = true ↔
      (MicroUnits sampleInfo 5)._microUnits = (MicroUnits sampleInfo 7)._microUnits) := by
  refine ⟨(equals_spec _ _).1 (Or.inl ?_), (equals_spec _ _).2.1 rfl rfl,
    (equals_spec _ _).2.2 rfl rfl ?_ ?_⟩
  · norm_num [MicroUnits, assetId]
  · simp [MicroUnits]
  · simp [MicroUnits]

/-- Counterexample for C4 as stated: with identical identities, `equals`
returns `true` between raw values `0` and `1/2`, which are not equal — the
comparison is not an exact comparison of the full-precision raw values. -/
theorem equals_cex :
    (MicroUnits sampleInfo 0).equals (MicroUnits sampleInfo (1/2)) = true ∧
    (MicroUnits sampleInfo 0)._microUnits ≠ (MicroUnits sampleInfo (1/2))._microUnits := by
  constructor
  · have h0 : (bnIntegerValue .roundDown ((2 : ℚ)⁻¹)) = 0 := by
      norm_num [bnIntegerValue]
    simp [equals, MicroUnits, assetId, decimals, microUnits, h0]
  · norm_num [MicroUnits]

/-! ### C6: add-then-subtract round-trip -/

/-- **C6 (amended).** For same-identity `a` and `b`, `a.add(b).subtract(b)`
returns exactly `a` (the raw value and identity round-trip with no drift,
because the same truncated value of `b` is added and then subtracted), and
the `equals` method accepts the result whenever `a`'s raw value is an
integer (for a fractional raw `a` the raw value still round-trips exactly,
but `equals` rejects it since it truncates its argument's microunits). -/
theorem add_subtract_roundtrip (a b : AssetAmount)
    (hid : a.assetId = b.assetId) (hdec : a.decimals = b.decimals) :
    (a.add b).bind (fun s => s.subtract b) = .ok a ∧
    (a._microUnits.den = 1 →
      ((a.add b).bind (fun s => s.subtract b)).map
        (fun t => t.equals a) = .ok true) := by
  simp only [assetId] at hid
  simp only [decimals] at hdec
  have hstep : (a.add b).bind (fun s => s.subtract b) = .ok a := by
    simp [add, subtract, assetId, decimals, MicroUnits, Except.bind, hid, hdec]
  refine ⟨hstep, fun h => ?_⟩
  rw [hstep]
  simp [Except.map, equals_self_of_den_eq_one h]

/-- Witness for C6 at same-identity integer amounts. -/
theorem add_subtract_roundtrip_witness :
    ((MicroUnits sampleInfo 7).add (MicroUnits sampleInfo 5)).bind
        (fun s => s.subtract (MicroUnits sampleInfo 5)) = .ok (MicroUnits sampleInfo 7) ∧
    (((MicroUnits sampleInfo 7).add (MicroUnits sampleInfo 5)).bind
        (fun s => s.subtract (MicroUnits sampleInfo 5))).map
        (fun t => t.equals (MicroUnits sampleInfo 7)) = .ok true := by
  have h := add_subtract_roundtrip (MicroUnits sampleInfo 7) (MicroUnits sampleInfo 5) rfl rfl
  exact ⟨h.1, h.2 (by simp [MicroUnits])⟩

/-- Counterexample for C6 as stated: with `a` holding the fractional raw
value `1/2` and `b = zero`, `a.add(b).subtract(b)` succeeds but `equals`
reports the result different from `a`. -/
theorem add_subtract_equals_cex :
    (((MicroUnits sampleInfo (1/2)).add (zero sampleInfo)).bind
        (fun s => s.subtract (zero sampleInfo))).map
        (fun t => t.equals (MicroUnits sampleInfo (1/2))) = .ok false := by
  have h0 : (bnIntegerValue .roundDown ((2 : ℚ)⁻¹)) = 0 := by
    norm_num [bnIntegerValue]
  have h00 : (bnIntegerValue .roundDown (0 : ℚ)) = 0 := by
    norm_num [bnIntegerValue]
  simp [add, subtract, zero, MicroUnits, assetId, decimals, microUnits, equals,
    sampleInfo, Except.map, Except.bind, h0, h00]

end AssetAmount

/-! ### C5: the constructor stores the caller's `AssetInfo` by reference

The TypeScript constructor executes `this._assetInfo = assetInfo` without
copying, so the constructed amount aliases the caller's object.  JavaScript
object references are modelled by addresses into a heap of `AssetInfo`
records: constructing an amount records the caller's address, the
`assetInfo` getter dereferences the heap at that address, and mutating the
caller's object updates the heap at its address. -/

def Heap : Type :=
  ℕ → AssetInfo

/-- In-place mutation of the object at address `r`
(e.g. `callerInfo.id = ...` after construction). -/
def Heap.set (h : Heap) (r : ℕ) (v : AssetInfo) : Heap :=
  fun i => if i = r then v else h i

/-- An `AssetAmount` whose `_assetInfo` field is a JavaScript reference. -/
structure AssetAmountRef where
  _microUnits : ℚ
  _assetInfoRef : ℕ

/-- The constructor over the heap model: `this._assetInfo = assetInfo`
stores the caller's reference unchanged. -/
def mkAssetAmountRef (assetInfoRef : ℕ) (raw : ℚ) : AssetAmountRef :=
  { _microUnits := raw, _assetInfoRef := assetInfoRef }

/-- `get assetInfo()`: dereferences the stored reference in the current heap. -/
def AssetAmountRef.assetInfo (h : Heap) (a : AssetAmountRef) : AssetInfo :=
  h a._assetInfoRef

/-- **C5 (amended).** The identity is *not* snapshotted: after mutating the
caller's identity object, the amount constructed from it observes the mutated
record (all fields), because the constructor stores the reference. -/
theorem assetInfo_not_snapshotted (h : Heap) (r : ℕ) (raw : ℚ) (newInfo : AssetInfo) :
    (mkAssetAmountRef r raw).assetInfo (h.set r newInfo) = newInfo := by
  simp [mkAssetAmountRef, AssetAmountRef.assetInfo, Heap.set]

/-- A caller's heap: one `AssetInfo` object `{ id: 1, decimals: 6 }`. -/
def callerHeap : Heap :=
  fun _ => { id := 1, decimals := 6 }

/-- Counterexample for C5 as stated: before mutation the amount's identity id
reads `1`; after mutating the caller's object to `{ id: 2, decimals: 8 }` the
same amount reads id `2` — the construction did not snapshot the identity. -/
theorem identity_snapshot_cex :
    ((mkAssetAmountRef 0 0).assetInfo callerHeap).id = 1 ∧
    ((mkAssetAmountRef 0 0).assetInfo
      (callerHeap.set 0 { id := 2, decimals := 8 })).id = 2 ∧
    (1 : ℤ) ≠ 2 := by
  refine ⟨rfl, ?_, by norm_num⟩
  simp [mkAssetAmountRef, AssetAmountRef.assetInfo, Heap.set, callerHeap]

namespace AssetAmount

/-! ### C7: `round` is idempotent -/

/-- **C7.** `round` is idempotent for every decimal-place count and every
supported rounding mode, and is a no-op returning the amount unchanged when
`decimalPlaces ≥ decimals`. -/
theorem round_idempotent (a : AssetAmount) (d : ℕ) (m : RoundingMode) :
    (a.round d m).round d m = a.round d m ∧
    (a.decimals ≤ d → a.round d m = a) := by
  refine ⟨?_, fun h => by simp [round, h]⟩
  by_cases h : a.decimals ≤ d
  · simp [round, h]
  · have h' : ¬ (a._assetInfo.decimals ≤ d) := h
    have hD : ((10 : ℚ) ^ (a._assetInfo.decimals - d)) ≠ 0 := by positivity
    have h1 : a.round d m
        = MicroUnits a._assetInfo
            ((bnIntegerValue m (a._microUnits / 10 ^ (a._assetInfo.decimals - d)) : ℚ)
              * 10 ^ (a._assetInfo.decimals - d)) := by
      simp only [round, decimals]
      rw [if_neg h']
    rw [h1]
    simp only [round, decimals, MicroUnits]
    rw [if_neg h', mul_div_cancel_right₀ _ hD, bnIntegerValue_intCast]

/-- Witness for C7: rounding `5.555555` (6 decimals) to 2 places twice equals
rounding once, and rounding to 8 ≥ 6 places is the identity. -/
theorem round_idempotent_witness :
    (((MicroUnits sampleInfo 5555555).round 2 .roundHalfUp).round 2 .roundHalfUp
      = (MicroUnits sampleInfo 5555555).round 2 .roundHalfUp) ∧
    (MicroUnits sampleInfo 5555555).round 8 .roundHalfUp = MicroUnits sampleInfo 5555555 := by
  refine ⟨(round_idempotent (MicroUnits sampleInfo 5555555) 2 .roundHalfUp).1, ?_⟩
  exact (round_idempotent (MicroUnits sampleInfo 5555555) 8 .roundHalfUp).2
    (by norm_num [MicroUnits, decimals, sampleInfo])

/-! ### C8: `percentageOf` -/

/-- **C8 (amended).** `percentageOf` fails with the id-mismatch /
decimals-mismatch errors exactly as claimed and with the zero-base error
exactly when `other`'s *raw* value is zero; on success it divides by the
*truncated* integer microunits of `other` (yielding a non-finite value when
that truncation is zero while the raw value is not).  The claimed formula
`(a.raw / other.raw) × 100` is recovered exactly when `other`'s raw value is
a (nonzero) integer. -/
theorem percentageOf_spec (a b : AssetAmount) :
    (a.assetId ≠ b.assetId →
      a.percentageOf b = .error (.assetIdMismatch a.assetId b.assetId)) ∧
    (a.assetId = b.assetId → a.decimals ≠ b.decimals →
      a.percentageOf b = .error .decimalsMismatch) ∧
    (a.assetId = b.assetId → a.decimals = b.decimals → b._microUnits = 0 →
      a.percentageOf b = .error .zeroPercentageBase) ∧
    (a.assetId = b.assetId → a.decimals = b.decimals → b._microUnits ≠ 0 →
      a.percentageOf b
        = .ok (if (b.microUnits : ℚ) = 0 then none
            else some (a._microUnits / (b.microUnits : ℚ) * 100))) ∧
    (a.assetId = b.assetId → a.decimals = b.decimals → b._microUnits ≠ 0 →
      b._microUnits.den = 1 →
      a.percentageOf b = .ok (some (a._microUnits / b._microUnits * 100))) := by
  refine ⟨fun hid => ?_, fun hid hdec => ?_, fun hid hdec hz => ?_,
    fun hid hdec hz => ?_, fun hid hdec hz hden => ?_⟩
  · simp [percentageOf, hid]
  · simp [percentageOf, hid, hdec]
  · simp [percentageOf, isZero, hid, hdec, hz]
  · simp only [percentageOf, isZero, hid, hdec]
    rw [if_neg (by simp), if_neg (by simp), if_neg (by simp [hz])]
    by_cases hm : (b.microUnits : ℚ) = 0 <;> simp [bnDividedBy, hm]
  · have hm : (b.microUnits : ℚ) = b._microUnits := microUnits_of_den_eq_one hden
    simp only [percentageOf, isZero, hid, hdec]
    rw [if_neg (by simp), if_neg (by simp), if_neg (by simp [hz])]
    simp [bnDividedBy, hm, hz]

/-- Witness for C8 on every branch. -/
theorem percentageOf_spec_witness :
    ((MicroUnits { id := 1, decimals := 6 } 25).percentageOf
      (MicroUnits { id := 2, decimals := 6 } 100) = .error (.assetIdMismatch 1 2)) ∧
    ((MicroUnits { id := 1, decimals := 6 } 25).percentageOf
      (MicroUnits { id := 1, decimals := 8 } 100) = .error .decimalsMismatch) ∧
    ((MicroUnits sampleInfo 25).percentageOf (MicroUnits sampleInfo 0)
      = .error .zeroPercentageBase) ∧
    ((MicroUnits sampleInfo 25).percentageOf (MicroUnits sampleInfo 100)
      = .ok (some 25)) := by
  refine ⟨?_, ?_, ?_, ?_⟩
  · exact (percentageOf_spec _ _).1 (by norm_num [MicroUnits, assetId])
  · exact (percentageOf_spec _ _).2.1 rfl (by norm_num [MicroUnits, decimals])
  · exact (percentageOf_spec _ _).2.2.1 rfl rfl (by norm_num [MicroUnits])
  · rw [(percentageOf_spec (MicroUnits sampleInfo 25)
      (MicroUnits sampleInfo 100)).2.2.2.2 rfl rfl (by norm_num [MicroUnits])
      (by simp [MicroUnits])]
    norm_num [MicroUnits]

/-- Counterexample for C8 as stated: with identical identities and the
nonzero fractional base `3/2`, the code divides by the truncated value `1`
and returns `100`, while the claimed formula `(raw / other.raw) × 100` gives
`200/3`; with base `1/2` (nonzero, so no zero-base error is raised) the code
divides by the truncated value `0`, producing a non-finite result instead of
a number. -/
theorem percentageOf_cex :
    ((MicroUnits sampleInfo 1).percentageOf (MicroUnits sampleInfo (3/2))
      = .ok (some 100)) ∧
    (MicroUnits sampleInfo 1)._microUnits / (MicroUnits sampleInfo (3/2))._microUnits * 100
      = 200/3 ∧
    ((200 : ℚ)/3 ≠ 100) ∧
    ((MicroUnits sampleInfo (1/2))._microUnits ≠ 0) ∧
    ((MicroUnits sampleInfo 1).percentageOf (MicroUnits sampleInfo (1/2)) = .ok none) := by
  have h32 : (bnIntegerValue .roundDown ((3 : ℚ)/2)) = 1 := by
    norm_num [bnIntegerValue, Int.floor_eq_iff]
  have h12 : (bnIntegerValue .roundDown ((1 : ℚ)/2)) = 0 := by
    norm_num [bnIntegerValue]
  refine ⟨?_, by norm_num [MicroUnits], by norm_num, by norm_num [MicroUnits], ?_⟩
  · simp only [percentageOf, isZero, MicroUnits, assetId, decimals, microUnits]
    norm_num [h32, bnDividedBy]
  · simp only [percentageOf, isZero, MicroUnits, assetId, decimals, microUnits]
    norm_num [h12, bnDividedBy]

/-! ### C10: which operations produce integer raw values -/

/-- **C10 (amended).** `fromStandardUnits`, `multiply` and `divide` always
store an integer raw microunits value, and so does `round` when
`decimalPlaces < decimals`; but `round` with `decimalPlaces ≥ decimals`
returns the amount unchanged, preserving a fractional raw value, so the
claimed invariant fails for `round` in the no-op case.  On any integer raw
value the `microUnits` accessor returns exactly the stored value. -/
theorem integer_raw_results (I : AssetInfo) (x s : ℚ) (a : AssetAmount)
    (d : ℕ) (m : RoundingMode) :
    (StandardUnits I x)._microUnits.den = 1 ∧
    (a.multiply s)._microUnits.den = 1 ∧
    (∀ r, a.divide s = .ok r → r._microUnits.den = 1) ∧
    (d < a.decimals → (a.round d m)._microUnits.den = 1) ∧
    (a.decimals ≤ d → a.round d m = a) ∧
    (a._microUnits.den = 1 → (a.microUnits : ℚ) = a._microUnits) := by
  refine ⟨?_, ?_, fun r hr => ?_, fun hd => ?_, fun hd => by simp [round, hd],
    fun h => microUnits_of_den_eq_one h⟩
  · simp [StandardUnits]
  · simp [multiply, MicroUnits]
  · by_cases hs : s = 0
    · simp [divide, hs] at hr
    · simp only [divide, if_neg hs, Except.ok.injEq] at hr
      rw [← hr]
      simp [MicroUnits]
  · have h : ¬ (a._assetInfo.decimals ≤ d) := not_le.mpr hd
    have heq : (a.round d m)._microUnits
        = (bnIntegerValue m (a._microUnits / 10 ^ (a._assetInfo.decimals - d)) : ℚ)
          * 10 ^ (a._assetInfo.decimals - d) := by
      simp only [round, decimals, MicroUnits]
      rw [if_neg h]
    have hcast : (bnIntegerValue m (a._microUnits / 10 ^ (a._assetInfo.decimals - d)) : ℚ)
          * 10 ^ (a._assetInfo.decimals - d)
        = ((bnIntegerValue m (a._microUnits / 10 ^ (a._assetInfo.decimals - d))
            * 10 ^ (a._assetInfo.decimals - d) : ℤ) : ℚ) := by
      push_cast
      ring
    rw [heq, hcast]
    exact Rat.den_intCast _

/-- Witness for C10: concrete instances of each conjunct. -/
theorem integer_raw_results_witness :
    ((StandardUnits sampleInfo (11/2))._microUnits.den = 1) ∧
    (((MicroUnits sampleInfo 5).multiply (3/2))._microUnits.den = 1) ∧
    ((MicroUnits sampleInfo 5).divide 2 = .ok (MicroUnits sampleInfo 2)) ∧
    ((MicroUnits sampleInfo 2)._microUnits.den = 1) ∧
    (((MicroUnits sampleInfo 5555555).round 2 .roundHalfUp)._microUnits.den = 1) ∧
    ((MicroUnits sampleInfo (1/2)).round 8 .roundHalfUp = MicroUnits sampleInfo (1/2)) := by
  have hdiv : (MicroUnits sampleInfo 5).divide 2 = .ok (MicroUnits sampleInfo 2) := by
    have h52 : (bnIntegerValue .roundDown ((5 : ℚ)/2)) = 2 := by
      norm_num [bnIntegerValue, Int.floor_eq_iff]
    simp only [divide, MicroUnits]
    norm_num [h52]
  refine ⟨(integer_raw_results sampleInfo (11/2) 1 (MicroUnits sampleInfo 5) 0
      .roundHalfUp).1, ?_, hdiv, ?_, ?_, ?_⟩
  · exact (integer_raw_results sampleInfo 1 (3/2) (MicroUnits sampleInfo 5) 0
      .roundHalfUp).2.1
  · exact (integer_raw_results sampleInfo 1 2 (MicroUnits sampleInfo 5) 0
      .roundHalfUp).2.2.1 (MicroUnits sampleInfo 2) hdiv
  · exact (integer_raw_results sampleInfo 1 1 (MicroUnits sampleInfo 5555555) 2
      .roundHalfUp).2.2.2.1 (by norm_num [MicroUnits, decimals, sampleInfo])
  · exact (integer_raw_results sampleInfo 1 1 (MicroUnits sampleInfo (1/2)) 8
      .roundHalfUp).2.2.2.2.1 (by norm_num [MicroUnits, decimals, sampleInfo])

/-- Counterexample for C10 as stated: `round` on an amount holding the
fractional raw value `1/2`, with `decimalPlaces = 6 ≥ decimals`, returns an
amount whose raw value is still the non-integer `1/2`. -/
theorem round_fractional_raw_cex :
    ((MicroUnits sampleInfo (1/2)).round 6 .roundHalfUp)._microUnits = 1/2 ∧
    ¬ ∃ n : ℤ, ((MicroUnits sampleInfo (1/2)).round 6 .roundHalfUp)._microUnits = n := by
  have hr : ((MicroUnits sampleInfo (1/2)).round 6 .roundHalfUp)._microUnits = 1/2 := by
    simp [round, MicroUnits, decimals, sampleInfo]
  refine ⟨hr, ?_⟩
  rintro ⟨n, hn⟩
  rw [hr] at hn
  have h2 : (1 : ℚ) = 2 * n := by
    field_simp at hn
    linarith
  have h2' : (1 : ℤ) = 2 * n := by exact_mod_cast h2
  omega

end AssetAmount

/-! ### Embedding of `formatNumber` (`format.ts`)

`Intl.NumberFormat('en-US', ...)` with equal minimum and maximum fraction
digit counts renders a number by rounding it half-away-from-zero (the
default "halfExpand" rounding) to that many fraction digits and grouping
the integer part in threes with commas.  Only the default
`style: 'decimal'` is modelled (the `currency` style differs only by a
leading dollar sign and is used by no claim).  Numeric inputs (double,
bigint, numeric string) are modelled as `ℚ`. -/

/-- The character of a single decimal digit. -/
def digitChar (d : ℕ) : Char :=
  Char.ofNat (48 + d)

/-- Decimal digits of `n`, least-significant first; fuel-structural
(`fuel ≥ n` suffices, and the empty list is returned for `n = 0`). -/
def natDigitsRevAux : ℕ → ℕ → List Char
  | 0, _ => []
  | _ + 1, 0 => []
  | fuel + 1, n => digitChar (n % 10) :: natDigitsRevAux fuel (n / 10)

/-- en-US thousands grouping: walking the digits least-significant first,
place a comma before every fourth, seventh, ... digit. -/
def groupRevDigits : List Char → ℕ → List Char
  | [], _ => []
  | c :: cs, k =>
    if k ≠ 0 ∧ k % 3 = 0 then ',' :: c :: groupRevDigits cs (k + 1)
    else c :: groupRevDigits cs (k + 1)

/-- Integer-part rendering with en-US thousands grouping. -/
def groupedNatString (n : ℕ) : String :=
  if n = 0 then "0"
  else String.mk (groupRevDigits (natDigitsRevAux n n) 0).reverse

/-- Fraction-part rendering: exactly `f` digits, left-padded with zeros. -/
def fracDigitsChars (f : ℕ) (n : ℕ) : List Char :=
  List.replicate (f - (natDigitsRevAux n n).length) '0' ++ (natDigitsRevAux n n).reverse

/-- `Intl.NumberFormat('en-US')` with
`minimumFractionDigits = maximumFractionDigits = f` applied to `x`:
round half-away-from-zero to `f` fraction digits, group the integer part,
render exactly `f` fraction digits.  (A value rounding to zero is rendered
without a sign; no claim depends on the negative-zero corner.) -/
def formatFixed (f : ℕ) (x : ℚ) : String :=
  let n : ℤ := bnIntegerValue .roundHalfUp (x * 10 ^ f)
  let sign := if n < 0 then "-" else ""
  let a := n.natAbs
  if f = 0 then sign ++ groupedNatString a
  else sign ++ groupedNatString (a / 10 ^ f) ++ "." ++ String.mk (fracDigitsChars f (a % 10 ^ f))

/-- `Intl.NumberFormat('en-US')` with `minimumFractionDigits = 0` and
`maximumFractionDigits = maxF`: like `formatFixed`, but trailing zero
fraction digits (and a then-bare decimal point) are dropped. -/
def formatUpTo (maxF : ℕ) (x : ℚ) : String :=
  let n : ℤ := bnIntegerValue .roundHalfUp (x * 10 ^ maxF)
  let sign := if n < 0 then "-" else ""
  let a := n.natAbs
  let trimmed := ((fracDigitsChars maxF (a % 10 ^ maxF)).reverse.dropWhile
    (fun c => c = '0')).reverse
  if trimmed.isEmpty then sign ++ groupedNatString (a / 10 ^ maxF)
  else sign ++ groupedNatString (a / 10 ^ maxF) ++ "." ++ String.mk trimmed

/-- `Number.prototype.toFixed(f)` as a rounding on the value: the nearest
multiple of `10 ^ -f`, ties toward positive infinity. -/
def toFixed (f : ℕ) (x : ℚ) : ℚ :=
  (⌊x * 10 ^ f + 1/2⌋ : ℚ) / 10 ^ f

/-- `roundToFirstNonZeroDecimal(num)`: `0` for `0`; otherwise round `num` to
`|e|` decimal places, where `e` is the exponent of `num` in scientific
notation (`num.toExponential()`), i.e. `Int.log 10 |num|`. -/
def roundToFirstNonZeroDecimal (num : ℚ) : ℚ :=
  if num = 0 then 0
  else toFixed (Int.log 10 |num|).natAbs num

/-- The `compact` option: a boolean or the string `"auto"`. -/
inductive CompactOpt where
  | flag (b : Bool)
  | auto
  deriving DecidableEq, Repr

/-- `FormatOptions` (the `style` field is omitted: only the default
`'decimal'` style is modelled). -/
structure FormatOptions where
  compact : CompactOpt := .flag false
  fractionDigits : Option ℕ := none
  adaptiveDecimals : Bool := false
  deriving DecidableEq, Repr

/-- One entry of the compact-notation tier table. -/
structure Tier where
  threshold : ℚ
  suffix : String
  divisor : ℚ
  deriving DecidableEq, Repr

/-- The tier table, in the source's descending order. -/
def tiers : List Tier :=
  [⟨10 ^ 12, "T", 10 ^ 12⟩, ⟨10 ^ 9, "B", 10 ^ 9⟩,
    ⟨10 ^ 6, "M", 10 ^ 6⟩, ⟨10 ^ 3, "K", 10 ^ 3⟩]

/-- `compact === 'auto' ? absValue >= DEFAULT_COMPACT_THRESHOLD : compact`
with `DEFAULT_COMPACT_THRESHOLD = 100_000n`. -/
def shouldUseCompact (compact : CompactOpt) (absValue : ℚ) : Bool :=
  match compact with
  | .auto => decide ((100000 : ℚ) ≤ absValue)
  | .flag b => b

/-- `tiers.find((t) => absValue >= t.threshold)`. -/
def findTier (absValue : ℚ) : Option Tier :=
  tiers.find? (fun t => decide (t.threshold ≤ absValue))

/-- `formatNumber(amount, options)`: decides compact activation, computes
the adaptive-decimals flag, renders through the base formatter when not
compacting (or when no tier matches), and otherwise scales by the first
matching tier's divisor, formats with `fractionDigits ?? 1` fixed fraction
digits and appends the tier suffix. -/
def formatNumber (value : ℚ) (options : FormatOptions) : String :=
  let absValue := |value|
  let fd2 := options.fractionDigits.getD 2
  let useRounding := options.adaptiveDecimals
    && decide (value ≠ 0)
    && decide (|value| < (10 : ℚ) ^ (-(fd2 : ℤ)))
  let baseFormat : String :=
    if useRounding then formatUpTo 20 (roundToFirstNonZeroDecimal value)
    else formatFixed fd2 value
  if !shouldUseCompact options.compact absValue then baseFormat
  else
    match findTier absValue with
    | some tier =>
        formatFixed (options.fractionDigits.getD 1) (value / tier.divisor) ++ tier.suffix
    | none => baseFormat

/-- `findTier` returns a tier from the table whose threshold is met, and it
is the one with the largest threshold among those met. -/
theorem findTier_largest {q : ℚ} {t : Tier} (h : findTier q = some t) :
    t ∈ tiers ∧ t.threshold ≤ q ∧
      ∀ u ∈ tiers, u.threshold ≤ q → u.threshold ≤ t.threshold := by
  by_cases c1 : (10 : ℚ) ^ 12 ≤ q
  · simp [findTier, tiers, List.find?, c1] at h
    subst h
    refine ⟨by simp [tiers], by simpa using c1, ?_⟩
    intro u hu hle
    simp only [tiers, List.mem_cons, List.not_mem_nil, or_false] at hu
    rcases hu with rfl | rfl | rfl | rfl <;> norm_num
  · by_cases c2 : (10 : ℚ) ^ 9 ≤ q
    · simp [findTier, tiers, List.find?, c1, c2] at h
      subst h
      refine ⟨by simp [tiers], by simpa using c2, ?_⟩
      intro u hu hle
      simp only [tiers, List.mem_cons, List.not_mem_nil, or_false] at hu
      rcases hu with rfl | rfl | rfl | rfl <;>
        first
          | exact absurd (by simpa using hle) c1
          | norm_num
    · by_cases c3 : (10 : ℚ) ^ 6 ≤ q
      · simp [findTier, tiers, List.find?, c1, c2, c3] at h
        subst h
        refine ⟨by simp [tiers], by simpa using c3, ?_⟩
        intro u hu hle
        simp only [tiers, List.mem_cons, List.not_mem_nil, or_false] at hu
        rcases hu with rfl | rfl | rfl | rfl <;>
          first
            | exact absurd (by simpa using hle) c1
            | exact absurd (by simpa using hle) c2
            | norm_num
      · by_cases c4 : (10 : ℚ) ^ 3 ≤ q
        · simp [findTier, tiers, List.find?, c1, c2, c3, c4] at h
          subst h
          refine ⟨by simp [tiers], by simpa using c4, ?_⟩
          intro u hu hle
          simp only [tiers, List.mem_cons, List.not_mem_nil, or_false] at hu
          rcases hu with rfl | rfl | rfl | rfl <;>
            first
              | exact absurd (by simpa using hle) c1
              | exact absurd (by simpa using hle) c2
              | exact absurd (by simpa using hle) c3
              | norm_num
        · simp [findTier, tiers, List.find?, c1, c2, c3, c4] at h

/-- **C9.** `formatNumber` activates compact mode whenever `compact` is
`true`, and with `compact = "auto"` exactly when `|value| ≥ 100000`; in
compact mode a tier matches whenever `|value| ≥ 1000`, the matched tier is
the largest-threshold tier of the table whose threshold is `≤ |value|`, and
the output is the value scaled by that tier's divisor, formatted with
`fractionDigits ?? 1` fixed fraction digits, with the tier suffix appended —
in particular `formatNumber(1500000, {compact: true})` is `"1.5M"`. -/
theorem formatNumber_compact_spec (v : ℚ) (fd : Option ℕ) (ad : Bool) :
    shouldUseCompact (.flag true) |v| = true ∧
    (shouldUseCompact .auto |v| = true ↔ (100000 : ℚ) ≤ |v|) ∧
    ((1000 : ℚ) ≤ |v| → (findTier |v|).isSome = true) ∧
    (∀ t, findTier |v| = some t →
      t ∈ tiers ∧ t.threshold ≤ |v| ∧
      (∀ u ∈ tiers, u.threshold ≤ |v| → u.threshold ≤ t.threshold) ∧
      formatNumber v { compact := .flag true, fractionDigits := fd, adaptiveDecimals := ad }
        = formatFixed (fd.getD 1) (v / t.divisor) ++ t.suffix) ∧
    formatNumber 1500000 { compact := .flag true } = "1.5M" := by
  refine ⟨rfl, by simp [shouldUseCompact], fun h1000 => ?_, fun t ht => ?_, ?_⟩
  · have h3 : (10 : ℚ) ^ 3 ≤ |v| := by
      norm_num
      linarith
    by_cases c1 : (10 : ℚ) ^ 12 ≤ |v| <;> by_cases c2 : (10 : ℚ) ^ 9 ≤ |v| <;>
      by_cases c3 : (10 : ℚ) ^ 6 ≤ |v| <;>
        simp [findTier, tiers, List.find?, c1, c2, c3, h3]
  · obtain ⟨hmem, hle, hmax⟩ := findTier_largest ht
    refine ⟨hmem, hle, hmax, ?_⟩
    simp [formatNumber, shouldUseCompact, ht]
  · have habs : |(1500000 : ℚ)| = 1500000 := by norm_num
    have hfind : findTier (1500000 : ℚ) = some ⟨10 ^ 6, "M", 10 ^ 6⟩ := by
      have c1 : ¬ ((10 : ℚ) ^ 12 ≤ 1500000) := by norm_num
      have c2 : ¬ ((10 : ℚ) ^ 9 ≤ 1500000) := by norm_num
      have c3 : (10 : ℚ) ^ 6 ≤ 1500000 := by norm_num
      simp [findTier, tiers, List.find?, c1, c2, c3]
    have hout : formatNumber 1500000 { compact := .flag true }
        = formatFixed 1 ((1500000 : ℚ) / 10 ^ 6) ++ "M" := by
      simp [formatNumber, shouldUseCompact, habs, hfind]
    have hn : bnIntegerValue .roundHalfUp ((1500000 : ℚ) / 10 ^ 6 * 10 ^ 1) = 15 := by
      have hv : ((1500000 : ℚ) / 10 ^ 6 * 10 ^ 1) = 15 := by norm_num
      rw [hv]
      norm_num [bnIntegerValue, Int.floor_eq_iff]
    have hff : formatFixed 1 ((1500000 : ℚ) / 10 ^ 6) = "1.5" := by
      simp only [formatFixed, hn]
      rfl
    rw [hout, hff]
    rfl

/-- Witness for C9: the tier-existence and tier-output parts instantiated at
`value = 1500000` with default options, alongside the concrete rendering. -/
theorem formatNumber_compact_spec_witness :
    formatNumber 1500000 { compact := .flag true } = "1.5M" ∧
    (1000 : ℚ) ≤ |(1500000 : ℚ)| ∧
    (findTier |(1500000 : ℚ)|).isSome = true ∧
    formatNumber 1500000
        { compact := .flag true, fractionDigits := none, adaptiveDecimals := false }
      = formatFixed ((none : Option ℕ).getD 1)
          (1500000 / (Tier.mk (10 ^ 6) "M" (10 ^ 6)).divisor)
        ++ (Tier.mk (10 ^ 6) "M" (10 ^ 6)).suffix := by
  have habs : |(1500000 : ℚ)| = 1500000 := by norm_num
  have hfind : findTier |(1500000 : ℚ)| = some ⟨10 ^ 6, "M", 10 ^ 6⟩ := by
    rw [habs]
    have c1 : ¬ ((10 : ℚ) ^ 12 ≤ 1500000) := by norm_num
    have c2 : ¬ ((10 : ℚ) ^ 9 ≤ 1500000) := by norm_num
    have c3 : (10 : ℚ) ^ 6 ≤ 1500000 := by norm_num
    simp [findTier, tiers, List.find?, c1, c2, c3]
  refine ⟨(formatNumber_compact_spec 1500000 none false).2.2.2.2, by norm_num,
    (formatNumber_compact_spec 1500000 none false).2.2.1 (by norm_num),
    ((formatNumber_compact_spec 1500000 none false).2.2.2.1 _ hfind).2.2.2⟩
